import Mathlib

/-!
Verification of the hierarchical option-chain order book registry
(`OpenLLT/Option-Chain-OrderBook`), shallowly embedded in Lean 4.

The embedding follows the Rust sources under `src/src/orderbook/`:

* `strike.rs` — `StrikeOrderBook`, `StrikeOrderBookManager`
* `chain.rs` — `OptionChainOrderBook`
* `expiration.rs` — `ExpirationOrderBook`, `ExpirationOrderBookManager`
* `underlying.rs` — `UnderlyingOrderBook`, `UnderlyingOrderBookManager`

The repository declares modules `book` (leaf `OptionOrderBook`), `quote`
(`Quote`) and `error` (`Error`) that are not present in the source tree;
those are modelled from the specification and marked as such in their
doc comments.

The concurrent `crossbeam_skiplist::SkipMap` containers are embedded as
association lists kept strictly sorted by key (`smInsert` replaces an
existing binding, as `SkipMap::insert` does).  Machine integers (`u64`,
`i64`) are embedded as `Nat`/`Int` with explicit two's-complement
wrapping where the code casts or subtracts.
-/

namespace OCOB

/-! ### Sorted association lists: the embedding of `crossbeam_skiplist::SkipMap` -/

/-- Lookup in the association list, the embedding of `SkipMap::get`. -/
def smGet {α β : Type} [LinearOrder α] (k : α) : List (α × β) → Option β
  | [] => none
  | (k0, v0) :: rest => if k = k0 then some v0 else smGet k rest

/-- Ordered insertion replacing an existing binding, the embedding of
`SkipMap::insert` (which removes an existing entry with the same key
before inserting the new one). -/
def smInsert {α β : Type} [LinearOrder α] (k : α) (v : β) : List (α × β) → List (α × β)
  | [] => [(k, v)]
  | (k0, v0) :: rest =>
    if k < k0 then (k, v) :: (k0, v0) :: rest
    else if k = k0 then (k, v) :: rest
    else (k0, v0) :: smInsert k v rest

/-- Removal returning the removed value (if any) and the remaining list,
the embedding of `SkipMap::remove`. -/
def smRemoveE {α β : Type} [LinearOrder α] (k : α) : List (α × β) → Option β × List (α × β)
  | [] => (none, [])
  | (k0, v0) :: rest =>
    if k = k0 then (some v0, rest)
    else
      let p := smRemoveE k rest
      (p.1, (k0, v0) :: p.2)

/-- Key membership, the embedding of `SkipMap::contains_key`. -/
def smContains {α β : Type} [LinearOrder α] (k : α) (l : List (α × β)) : Bool :=
  (smGet k l).isSome

/-- Keys in container order (ascending for a sorted list), the embedding
of iterating a `SkipMap` and projecting keys. -/
def smKeys {α β : Type} (l : List (α × β)) : List α :=
  l.map Prod.fst

/-! ### Quote and the leaf order book (modelled from the spec) -/

/-- Order side as used by the leaf order book. -/
inductive Side : Type
  | buy : Side
  | sell : Side
deriving DecidableEq

/-- A resting limit order: side, price and size. -/
structure Order : Type where
  side : Side
  price : Nat
  size : Nat
deriving DecidableEq

/-- Modelled from the spec: `Quote` (module `quote` is declared in
`orderbook/mod.rs` but `quote.rs` is not in the source tree).  A
two-sided top-of-book view with bid price/size and ask price/size;
either side may be absent. -/
structure Quote : Type where
  bid : Option (Nat × Nat)
  ask : Option (Nat × Nat)
deriving DecidableEq

/-- Modelled from the spec: a quote is two-sided iff both a bid and an
ask are present. -/
def Quote.is_two_sided (q : Quote) : Bool :=
  q.bid.isSome && q.ask.isSome

/-- Modelled from the spec: the external leaf order book `OptionOrderBook`
(module `book` is declared in `orderbook/mod.rs` but `book.rs` is not in
the source tree).  The registry only requires that it expose add order,
best two-sided quote, order count, clear and is-empty; we model it as the
multiset of resting orders, carried as a list. -/
structure OptionOrderBook : Type where
  symbol : String
  orders : List Order
deriving DecidableEq

/-- Modelled from the spec: a fresh, empty leaf order book for a contract
symbol. -/
def OptionOrderBook.new (symbol : String) : OptionOrderBook :=
  ⟨symbol, []⟩

/-- Modelled from the spec: `add_limit_order` rests the order in the book. -/
def OptionOrderBook.add_limit_order (b : OptionOrderBook) (side : Side) (price size : Nat) :
    OptionOrderBook :=
  { b with orders := b.orders ++ [⟨side, price, size⟩] }

/-- Modelled from the spec: `order_count` is the number of resting orders. -/
def OptionOrderBook.order_count (b : OptionOrderBook) : Nat :=
  b.orders.length

/-- Modelled from the spec: `is_empty` holds iff no order rests in the book. -/
def OptionOrderBook.is_empty (b : OptionOrderBook) : Bool :=
  b.orders.isEmpty

/-- Modelled from the spec: `clear` removes all resting orders. -/
def OptionOrderBook.clear (b : OptionOrderBook) : OptionOrderBook :=
  { b with orders := [] }

/-- Buy-side resting orders of a leaf book. -/
def OptionOrderBook.bids (b : OptionOrderBook) : List Order :=
  b.orders.filter (fun o => o.side = Side.buy)

/-- Sell-side resting orders of a leaf book. -/
def OptionOrderBook.asks (b : OptionOrderBook) : List Order :=
  b.orders.filter (fun o => o.side = Side.sell)

/-- Best price/size on one side: the extremal price among the given
orders, `none` when the side is empty. -/
def bestOfSide (better : Nat → Nat → Bool) : List Order → Option (Nat × Nat)
  | [] => none
  | o :: os =>
    match bestOfSide better os with
    | none => some (o.price, o.size)
    | some (p, s) => if better o.price p then some (o.price, o.size) else some (p, s)

/-- Modelled from the spec: `best_quote` computes the top of book on
demand — highest bid and lowest ask, absent when the side holds no
orders. -/
def OptionOrderBook.best_quote (b : OptionOrderBook) : Quote :=
  { bid := bestOfSide (fun p q => q < p) b.bids
    ask := bestOfSide (fun p q => p < q) b.asks }

/-! ### Errors (modelled from the spec) -/

/-- Modelled from the spec: the error sum type (`error.rs` is not in the
source tree), each kind carrying the offending key.  At the expiration
level the Rust code renders the key to a string
(`Error::expiration_not_found(expiration.to_string())`); we carry the
expiration key itself. -/
inductive Error : Type
  | StrikeNotFound : Nat → Error
  | ExpirationNotFound : Nat → Error
  | UnderlyingNotFound : String → Error
  | NoDataAvailable : String → Error
deriving DecidableEq

/-! ### StrikeOrderBook (`strike.rs` lines 29-202) -/

/-- The call/put pair at one strike, from `strike.rs`.  The optional
per-side Greeks caches are omitted (they are written and read only by
the Greeks accessors, which no verified property touches); the unique
`OrderId` is embedded as a `Nat` drawn from the manager's id supply. -/
structure StrikeOrderBook : Type where
  underlying : String
  expiration : Nat
  strike : Nat
  call : OptionOrderBook
  put : OptionOrderBook
  id : Nat
deriving DecidableEq

/-- Constructor `StrikeOrderBook::new`: binds fresh call and put leaves
to symbols derived from (underlying, expiration, strike, side). -/
def StrikeOrderBook.new (underlying : String) (expiration strike : Nat) (id : Nat) :
    StrikeOrderBook :=
  { underlying := underlying
    expiration := expiration
    strike := strike
    call := OptionOrderBook.new
      (underlying ++ "-" ++ toString expiration ++ "-" ++ toString strike ++ "-C")
    put := OptionOrderBook.new
      (underlying ++ "-" ++ toString expiration ++ "-" ++ toString strike ++ "-P")
    id := id }

/-- `StrikeOrderBook::call_quote` (`strike.rs` 147-149). -/
def StrikeOrderBook.call_quote (b : StrikeOrderBook) : Quote :=
  b.call.best_quote

/-- `StrikeOrderBook::put_quote` (`strike.rs` 153-155). -/
def StrikeOrderBook.put_quote (b : StrikeOrderBook) : Quote :=
  b.put.best_quote

/-- `StrikeOrderBook::is_fully_quoted` (`strike.rs` 159-161): both call
and put best quotes are two-sided. -/
def StrikeOrderBook.is_fully_quoted (b : StrikeOrderBook) : Bool :=
  b.call.best_quote.is_two_sided && b.put.best_quote.is_two_sided

/-- `StrikeOrderBook::order_count` (`strike.rs` 165-167): call plus put. -/
def StrikeOrderBook.order_count (b : StrikeOrderBook) : Nat :=
  b.call.order_count + b.put.order_count

/-- `StrikeOrderBook::is_empty` (`strike.rs` 171-173): both leaves empty. -/
def StrikeOrderBook.is_empty (b : StrikeOrderBook) : Bool :=
  b.call.is_empty && b.put.is_empty

/-- `StrikeOrderBook::clear` (`strike.rs` 176-179): clears both leaves. -/
def StrikeOrderBook.clear (b : StrikeOrderBook) : StrikeOrderBook :=
  { b with call := b.call.clear, put := b.put.clear }

/-! ### StrikeOrderBookManager (`strike.rs` lines 208-327) -/

/-- The concurrent registry of strikes for one (underlying, expiration),
from `strike.rs`.  `nextId` embeds the global `OrderId::new()` supply
used by `StrikeOrderBook::new`. -/
structure StrikeOrderBookManager : Type where
  strikes : List (Nat × StrikeOrderBook)
  underlying : String
  expiration : Nat
  nextId : Nat
deriving DecidableEq

/-- `StrikeOrderBookManager::new` (`strike.rs` 225-231). -/
def StrikeOrderBookManager.new (underlying : String) (expiration : Nat) :
    StrikeOrderBookManager :=
  { strikes := [], underlying := underlying, expiration := expiration, nextId := 0 }

/-- `StrikeOrderBookManager::len` (`strike.rs` 247-249). -/
def StrikeOrderBookManager.len (m : StrikeOrderBookManager) : Nat :=
  m.strikes.length

/-- `StrikeOrderBookManager::is_empty` (`strike.rs` 253-255). -/
def StrikeOrderBookManager.is_empty (m : StrikeOrderBookManager) : Bool :=
  m.strikes.isEmpty

/-- `StrikeOrderBookManager::get_or_create` (`strike.rs` 258-269): return
the existing book if present, otherwise construct a fresh one and insert
it.  Sequential embedding: the returned manager reflects the state after
the call. -/
def StrikeOrderBookManager.get_or_create (m : StrikeOrderBookManager) (strike : Nat) :
    StrikeOrderBook × StrikeOrderBookManager :=
  match smGet strike m.strikes with
  | some book => (book, m)
  | none =>
    let book := StrikeOrderBook.new m.underlying m.expiration strike m.nextId
    (book, { m with strikes := smInsert strike book m.strikes, nextId := m.nextId + 1 })

/-- `StrikeOrderBookManager::get` (`strike.rs` 276-281): fails with
`StrikeNotFound` when absent, never creates. -/
def StrikeOrderBookManager.get (m : StrikeOrderBookManager) (strike : Nat) :
    Except Error StrikeOrderBook :=
  match smGet strike m.strikes with
  | some book => Except.ok book
  | none => Except.error (Error.StrikeNotFound strike)

/-- `StrikeOrderBookManager::contains` (`strike.rs` 285-287). -/
def StrikeOrderBookManager.contains (m : StrikeOrderBookManager) (strike : Nat) : Bool :=
  smContains strike m.strikes

/-- `StrikeOrderBookManager::remove` (`strike.rs` 299-301):
`self.strikes.remove(&strike).is_some()`. -/
def StrikeOrderBookManager.remove (m : StrikeOrderBookManager) (strike : Nat) :
    Bool × StrikeOrderBookManager :=
  let p := smRemoveE strike m.strikes
  (p.1.isSome, { m with strikes := p.2 })

/-- `StrikeOrderBookManager::strike_prices` (`strike.rs` 305-307): keys
in container (ascending) order. -/
def StrikeOrderBookManager.strike_prices (m : StrikeOrderBookManager) : List Nat :=
  smKeys m.strikes

/-- `StrikeOrderBookManager::total_order_count` (`strike.rs` 311-313). -/
def StrikeOrderBookManager.total_order_count (m : StrikeOrderBookManager) : Nat :=
  (m.strikes.map (fun e => e.2.order_count)).sum

/-! ### The `atm_strike` distance arithmetic (`strike.rs` 320-326) -/

/-- Reinterpret a `u64` value as `i64`, as the Rust cast `k as i64` does:
reduce mod `2 ^ 64` and pick the signed representative. -/
def i64ofNat (x : Nat) : Int :=
  let r : Nat := x % 2 ^ 64
  if r < 2 ^ 63 then (r : Int) else (r : Int) - 2 ^ 64

/-- Wrap an integer into the `i64` range, the two's-complement result of
an `i64` subtraction. -/
def i64wrap (z : Int) : Int :=
  (z + 2 ^ 63) % 2 ^ 64 - 2 ^ 63

/-- The sort key computed by `atm_strike` for a registered strike `k`
against the spot: `(k as i64 - spot as i64).unsigned_abs()`. -/
def distKey (spot k : Nat) : Nat :=
  (i64wrap (i64ofNat k - i64ofNat spot)).natAbs

/-- The exact absolute distance `|a - b|` over unbounded integers; this
is the metric named by the specification for ATM resolution. -/
def absDist (a b : Nat) : Nat :=
  ((a : Int) - (b : Int)).natAbs

/-- First minimum of `f` over a list, the embedding of Rust
`Iterator::min_by_key` (when several elements are equally minimum, the
first is returned). -/
def minByKey {α : Type} (f : α → Nat) : List α → Option α
  | [] => none
  | x :: xs =>
    match minByKey f xs with
    | none => some x
    | some m => if f x ≤ f m then some x else some m

/-- `StrikeOrderBookManager::atm_strike` (`strike.rs` 320-326): the
registered strike minimizing the wrapped `i64` distance to the spot,
`NoDataAvailable` when no strikes are registered. -/
def StrikeOrderBookManager.atm_strike (m : StrikeOrderBookManager) (spot : Nat) :
    Except Error Nat :=
  match minByKey (distKey spot) (smKeys m.strikes) with
  | some k => Except.ok k
  | none => Except.error (Error.NoDataAvailable "no strikes available")

/-! ### OptionChainOrderBook (`chain.rs` lines 26-141) -/

/-- The option chain for one expiration, from `chain.rs`: a facade over
one `StrikeOrderBookManager`.  The `OrderId` identity field, read only by
the `id()` getter, is omitted. -/
structure OptionChainOrderBook : Type where
  underlying : String
  expiration : Nat
  strikes : StrikeOrderBookManager
deriving DecidableEq

/-- `OptionChainOrderBook::new` (`chain.rs` 45-54). -/
def OptionChainOrderBook.new (underlying : String) (expiration : Nat) : OptionChainOrderBook :=
  { underlying := underlying
    expiration := expiration
    strikes := StrikeOrderBookManager.new underlying expiration }

/-- `OptionChainOrderBook::get_or_create_strike` (`chain.rs` 87-89). -/
def OptionChainOrderBook.get_or_create_strike (c : OptionChainOrderBook) (strike : Nat) :
    StrikeOrderBook × OptionChainOrderBook :=
  let p := c.strikes.get_or_create strike
  (p.1, { c with strikes := p.2 })

/-- `OptionChainOrderBook::get_strike` (`chain.rs` 96-98). -/
def OptionChainOrderBook.get_strike (c : OptionChainOrderBook) (strike : Nat) :
    Except Error StrikeOrderBook :=
  c.strikes.get strike

/-- `OptionChainOrderBook::strike_count` (`chain.rs` 102-104). -/
def OptionChainOrderBook.strike_count (c : OptionChainOrderBook) : Nat :=
  c.strikes.len

/-- `OptionChainOrderBook::is_empty` (`chain.rs` 108-110). -/
def OptionChainOrderBook.is_empty (c : OptionChainOrderBook) : Bool :=
  c.strikes.is_empty

/-- `OptionChainOrderBook::strike_prices` (`chain.rs` 113-115). -/
def OptionChainOrderBook.strike_prices (c : OptionChainOrderBook) : List Nat :=
  c.strikes.strike_prices

/-- `OptionChainOrderBook::total_order_count` (`chain.rs` 119-121). -/
def OptionChainOrderBook.total_order_count (c : OptionChainOrderBook) : Nat :=
  c.strikes.total_order_count

/-- `OptionChainOrderBook::atm_strike` (`chain.rs` 128-130). -/
def OptionChainOrderBook.atm_strike (c : OptionChainOrderBook) (spot : Nat) : Except Error Nat :=
  c.strikes.atm_strike spot

/-- `OptionChainStats` (`chain.rs` 145-152). -/
structure OptionChainStats : Type where
  expiration : Nat
  strike_count : Nat
  total_orders : Nat
deriving DecidableEq

/-- `OptionChainOrderBook::stats` (`chain.rs` 134-140). -/
def OptionChainOrderBook.stats (c : OptionChainOrderBook) : OptionChainStats :=
  { expiration := c.expiration
    strike_count := c.strike_count
    total_orders := c.total_order_count }

/-! ### ExpirationOrderBook and its manager (`expiration.rs`) -/

/-- The order book for one expiration date, from `expiration.rs`: owns
the option chain for that expiration.  The `OrderId` identity field is
omitted as above. -/
structure ExpirationOrderBook : Type where
  underlying : String
  expiration : Nat
  chain : OptionChainOrderBook
deriving DecidableEq

/-- `ExpirationOrderBook::new` (`expiration.rs` 45-54). -/
def ExpirationOrderBook.new (underlying : String) (expiration : Nat) : ExpirationOrderBook :=
  { underlying := underlying
    expiration := expiration
    chain := OptionChainOrderBook.new underlying expiration }

/-- `ExpirationOrderBook::get_or_create_strike` (`expiration.rs` 87-89). -/
def ExpirationOrderBook.get_or_create_strike (e : ExpirationOrderBook) (strike : Nat) :
    StrikeOrderBook × ExpirationOrderBook :=
  let p := e.chain.get_or_create_strike strike
  (p.1, { e with chain := p.2 })

/-- `ExpirationOrderBook::get_strike` (`expiration.rs` 96-98). -/
def ExpirationOrderBook.get_strike (e : ExpirationOrderBook) (strike : Nat) :
    Except Error StrikeOrderBook :=
  e.chain.get_strike strike

/-- `ExpirationOrderBook::strike_count` (`expiration.rs` 102-104). -/
def ExpirationOrderBook.strike_count (e : ExpirationOrderBook) : Nat :=
  e.chain.strike_count

/-- `ExpirationOrderBook::is_empty` (`expiration.rs` 108-110). -/
def ExpirationOrderBook.is_empty (e : ExpirationOrderBook) : Bool :=
  e.chain.is_empty

/-- `ExpirationOrderBook::total_order_count` (`expiration.rs` 119-121). -/
def ExpirationOrderBook.total_order_count (e : ExpirationOrderBook) : Nat :=
  e.chain.total_order_count

/-- The concurrent registry of expirations for one underlying, from
`expiration.rs` lines 137-245. -/
structure ExpirationOrderBookManager : Type where
  expirations : List (Nat × ExpirationOrderBook)
  underlying : String
deriving DecidableEq

/-- `ExpirationOrderBookManager::new` (`expiration.rs` 151-156). -/
def ExpirationOrderBookManager.new (underlying : String) : ExpirationOrderBookManager :=
  { expirations := [], underlying := underlying }

/-- `ExpirationOrderBookManager::len` (`expiration.rs` 166-168). -/
def ExpirationOrderBookManager.len (m : ExpirationOrderBookManager) : Nat :=
  m.expirations.length

/-- `ExpirationOrderBookManager::is_empty` (`expiration.rs` 172-174). -/
def ExpirationOrderBookManager.is_empty (m : ExpirationOrderBookManager) : Bool :=
  m.expirations.isEmpty

/-- `ExpirationOrderBookManager::get_or_create` (`expiration.rs` 177-184). -/
def ExpirationOrderBookManager.get_or_create (m : ExpirationOrderBookManager)
    (expiration : Nat) : ExpirationOrderBook × ExpirationOrderBookManager :=
  match smGet expiration m.expirations with
  | some book => (book, m)
  | none =>
    let book := ExpirationOrderBook.new m.underlying expiration
    (book, { m with expirations := smInsert expiration book m.expirations })

/-- `ExpirationOrderBookManager::get` (`expiration.rs` 191-196). -/
def ExpirationOrderBookManager.get (m : ExpirationOrderBookManager) (expiration : Nat) :
    Except Error ExpirationOrderBook :=
  match smGet expiration m.expirations with
  | some book => Except.ok book
  | none => Except.error (Error.ExpirationNotFound expiration)

/-- `ExpirationOrderBookManager::contains` (`expiration.rs` 200-202). -/
def ExpirationOrderBookManager.contains (m : ExpirationOrderBookManager)
    (expiration : Nat) : Bool :=
  smContains expiration m.expirations

/-- `ExpirationOrderBookManager::remove` (`expiration.rs` 213-215). -/
def ExpirationOrderBookManager.remove (m : ExpirationOrderBookManager) (expiration : Nat) :
    Bool × ExpirationOrderBookManager :=
  let p := smRemoveE expiration m.expirations
  (p.1.isSome, { m with expirations := p.2 })

/-- `ExpirationOrderBookManager::total_order_count` (`expiration.rs` 219-224). -/
def ExpirationOrderBookManager.total_order_count (m : ExpirationOrderBookManager) : Nat :=
  (m.expirations.map (fun e => e.2.total_order_count)).sum

/-- `ExpirationOrderBookManager::total_strike_count` (`expiration.rs` 228-233). -/
def ExpirationOrderBookManager.total_strike_count (m : ExpirationOrderBookManager) : Nat :=
  (m.expirations.map (fun e => e.2.strike_count)).sum

/-! ### UnderlyingOrderBook and the root manager (`underlying.rs`) -/

/-- The order book for one underlying asset, from `underlying.rs` lines
25-108: owns the expiration manager for that asset. -/
structure UnderlyingOrderBook : Type where
  underlying : String
  expirations : ExpirationOrderBookManager
deriving DecidableEq

/-- `UnderlyingOrderBook::new` (`underlying.rs` 39-46). -/
def UnderlyingOrderBook.new (underlying : String) : UnderlyingOrderBook :=
  { underlying := underlying
    expirations := ExpirationOrderBookManager.new underlying }

/-- `UnderlyingOrderBook::get_or_create_expiration` (`underlying.rs` 61-63). -/
def UnderlyingOrderBook.get_or_create_expiration (u : UnderlyingOrderBook)
    (expiration : Nat) : ExpirationOrderBook × UnderlyingOrderBook :=
  let p := u.expirations.get_or_create expiration
  (p.1, { u with expirations := p.2 })

/-- `UnderlyingOrderBook::get_expiration` (`underlying.rs` 70-72). -/
def UnderlyingOrderBook.get_expiration (u : UnderlyingOrderBook) (expiration : Nat) :
    Except Error ExpirationOrderBook :=
  u.expirations.get expiration

/-- `UnderlyingOrderBook::expiration_count` (`underlying.rs` 76-78). -/
def UnderlyingOrderBook.expiration_count (u : UnderlyingOrderBook) : Nat :=
  u.expirations.len

/-- `UnderlyingOrderBook::is_empty` (`underlying.rs` 82-84). -/
def UnderlyingOrderBook.is_empty (u : UnderlyingOrderBook) : Bool :=
  u.expirations.is_empty

/-- `UnderlyingOrderBook::total_order_count` (`underlying.rs` 88-90). -/
def UnderlyingOrderBook.total_order_count (u : UnderlyingOrderBook) : Nat :=
  u.expirations.total_order_count

/-- `UnderlyingOrderBook::total_strike_count` (`underlying.rs` 94-96). -/
def UnderlyingOrderBook.total_strike_count (u : UnderlyingOrderBook) : Nat :=
  u.expirations.total_strike_count

/-- `UnderlyingStats` (`underlying.rs` 112-121). -/
structure UnderlyingStats : Type where
  underlying : String
  expiration_count : Nat
  total_strikes : Nat
  total_orders : Nat
deriving DecidableEq

/-- `UnderlyingOrderBook::stats` (`underlying.rs` 100-107). -/
def UnderlyingOrderBook.stats (u : UnderlyingOrderBook) : UnderlyingStats :=
  { underlying := u.underlying
    expiration_count := u.expiration_count
    total_strikes := u.total_strike_count
    total_orders := u.total_order_count }

/-- The root registry `symbol → UnderlyingOrderBook`, from
`underlying.rs` lines 150-267. -/
structure UnderlyingOrderBookManager : Type where
  underlyings : List (String × UnderlyingOrderBook)
deriving DecidableEq

/-- `UnderlyingOrderBookManager::new` (`underlying.rs` 164-168). -/
def UnderlyingOrderBookManager.new : UnderlyingOrderBookManager :=
  { underlyings := [] }

/-- `UnderlyingOrderBookManager::len` (`underlying.rs` 172-174). -/
def UnderlyingOrderBookManager.len (m : UnderlyingOrderBookManager) : Nat :=
  m.underlyings.length

/-- `UnderlyingOrderBookManager::is_empty` (`underlying.rs` 178-180). -/
def UnderlyingOrderBookManager.is_empty (m : UnderlyingOrderBookManager) : Bool :=
  m.underlyings.isEmpty

/-- `UnderlyingOrderBookManager::get_or_create` (`underlying.rs` 183-191). -/
def UnderlyingOrderBookManager.get_or_create (m : UnderlyingOrderBookManager)
    (underlying : String) : UnderlyingOrderBook × UnderlyingOrderBookManager :=
  match smGet underlying m.underlyings with
  | some book => (book, m)
  | none =>
    let book := UnderlyingOrderBook.new underlying
    (book, { m with underlyings := smInsert underlying book m.underlyings })

/-- `UnderlyingOrderBookManager::get` (`underlying.rs` 198-203). -/
def UnderlyingOrderBookManager.get (m : UnderlyingOrderBookManager) (underlying : String) :
    Except Error UnderlyingOrderBook :=
  match smGet underlying m.underlyings with
  | some book => Except.ok book
  | none => Except.error (Error.UnderlyingNotFound underlying)

/-- `UnderlyingOrderBookManager::contains` (`underlying.rs` 207-209). -/
def UnderlyingOrderBookManager.contains (m : UnderlyingOrderBookManager)
    (underlying : String) : Bool :=
  smContains underlying m.underlyings

/-- `UnderlyingOrderBookManager::remove` (`underlying.rs` 220-222). -/
def UnderlyingOrderBookManager.remove (m : UnderlyingOrderBookManager) (underlying : String) :
    Bool × UnderlyingOrderBookManager :=
  let p := smRemoveE underlying m.underlyings
  (p.1.isSome, { m with underlyings := p.2 })

/-- `UnderlyingOrderBookManager::underlying_symbols` (`underlying.rs` 226-228). -/
def UnderlyingOrderBookManager.underlying_symbols (m : UnderlyingOrderBookManager) :
    List String :=
  smKeys m.underlyings

/-- `UnderlyingOrderBookManager::total_order_count` (`underlying.rs` 232-237). -/
def UnderlyingOrderBookManager.total_order_count (m : UnderlyingOrderBookManager) : Nat :=
  (m.underlyings.map (fun e => e.2.total_order_count)).sum

/-- `UnderlyingOrderBookManager::total_expiration_count` (`underlying.rs` 241-246). -/
def UnderlyingOrderBookManager.total_expiration_count (m : UnderlyingOrderBookManager) : Nat :=
  (m.underlyings.map (fun e => e.2.expiration_count)).sum

/-- `UnderlyingOrderBookManager::total_strike_count` (`underlying.rs` 250-255). -/
def UnderlyingOrderBookManager.total_strike_count (m : UnderlyingOrderBookManager) : Nat :=
  (m.underlyings.map (fun e => e.2.total_strike_count)).sum

/-- `GlobalStats` (`underlying.rs` 271-280). -/
structure GlobalStats : Type where
  underlying_count : Nat
  total_expirations : Nat
  total_strikes : Nat
  total_orders : Nat
deriving DecidableEq

/-- `UnderlyingOrderBookManager::stats` (`underlying.rs` 259-266). -/
def UnderlyingOrderBookManager.stats (m : UnderlyingOrderBookManager) : GlobalStats :=
  { underlying_count := m.len
    total_expirations := m.total_expiration_count
    total_strikes := m.total_strike_count
    total_orders := m.total_order_count }

/-! ### Reachable children of the root, defined by direct traversal

These definitions flatten the tree independently of the `stats`
aggregation chain, so that aggregation consistency is a theorem rather
than a restatement. -/

/-- Every expiration order book reachable from the root. -/
def reachableExpirationBooks (m : UnderlyingOrderBookManager) : List ExpirationOrderBook :=
  m.underlyings.flatMap (fun u => u.2.expirations.expirations.map Prod.snd)

/-- Every strike order book reachable from the root. -/
def reachableStrikeBooks (m : UnderlyingOrderBookManager) : List StrikeOrderBook :=
  (reachableExpirationBooks m).flatMap (fun e => e.chain.strikes.strikes.map Prod.snd)

/-- Every call/put leaf order book reachable from the root. -/
def reachableLeafBooks (m : UnderlyingOrderBookManager) : List OptionOrderBook :=
  (reachableStrikeBooks m).flatMap (fun b => [b.call, b.put])

/-! ### Operation sequences over a registry level (for the sorted-enumeration claim) -/

/-- A structural mutation at one registry level: `get_or_create` (result
discarded) or `remove` (result discarded). -/
inductive RegOp (κ : Type) : Type
  | create : κ → RegOp κ
  | remove : κ → RegOp κ
deriving DecidableEq

/-- Apply one mutation to a strike manager. -/
def StrikeOrderBookManager.applyOp (m : StrikeOrderBookManager) :
    RegOp Nat → StrikeOrderBookManager
  | RegOp.create k => (m.get_or_create k).2
  | RegOp.remove k => (m.remove k).2

/-- Apply a sequence of mutations to a strike manager, oldest first. -/
def StrikeOrderBookManager.applyOps (m : StrikeOrderBookManager)
    (ops : List (RegOp Nat)) : StrikeOrderBookManager :=
  ops.foldl StrikeOrderBookManager.applyOp m

/-- Apply one mutation to the root manager. -/
def UnderlyingOrderBookManager.applyOp (m : UnderlyingOrderBookManager) :
    RegOp String → UnderlyingOrderBookManager
  | RegOp.create k => (m.get_or_create k).2
  | RegOp.remove k => (m.remove k).2

/-- Apply a sequence of mutations to the root manager, oldest first. -/
def UnderlyingOrderBookManager.applyOps (m : UnderlyingOrderBookManager)
    (ops : List (RegOp String)) : UnderlyingOrderBookManager :=
  ops.foldl UnderlyingOrderBookManager.applyOp m

/-- Get-or-create each key in turn, discarding the returned handles (used
to state that later creations do not disturb an existing binding). -/
def StrikeOrderBookManager.applyCreates (m : StrikeOrderBookManager) (ks : List Nat) :
    StrikeOrderBookManager :=
  ks.foldl (fun acc k => (acc.get_or_create k).2) m

/-- Get-or-create each expiration in turn, discarding the returned handles. -/
def ExpirationOrderBookManager.applyCreates (m : ExpirationOrderBookManager)
    (ks : List Nat) : ExpirationOrderBookManager :=
  ks.foldl (fun acc k => (acc.get_or_create k).2) m

/-- Get-or-create each symbol in turn, discarding the returned handles. -/
def UnderlyingOrderBookManager.applyCreates (m : UnderlyingOrderBookManager)
    (ks : List String) : UnderlyingOrderBookManager :=
  ks.foldl (fun acc k => (acc.get_or_create k).2) m

/-! ### Handle (reference-counted) model of the strike registry

`StrikeOrderBookManager.get_or_create` and `remove` (`strike.rs` 258-269
and 299-301) embedded a second time, with the `Arc` sharing made
explicit: `entries` is the skiplist binding strike → instance id, and
`store` maps the id of every instance that is still referenced — by the
map or by an outstanding caller handle — to its contents.  `remove`
deletes only the map binding (dropping the map's reference), so a handle
held by a caller keeps dereferencing to the same, unchanged instance. -/

structure HandleState : Type where
  entries : List (Nat × Nat)
  store : List (Nat × StrikeOrderBook)
  underlying : String
  expiration : Nat
  nextId : Nat
deriving DecidableEq

/-- A fresh registry with no strikes and no live instances. -/
def HandleState.init (underlying : String) (expiration : Nat) : HandleState :=
  { entries := [], store := [], underlying := underlying, expiration := expiration, nextId := 0 }

/-- Dereference a handle: the instance it keeps alive. -/
def HandleState.deref (st : HandleState) (h : Nat) : Option StrikeOrderBook :=
  smGet h st.store

/-- `get_or_create` in the handle model (`strike.rs` 258-269): return the
id bound in the map if present, otherwise construct a fresh instance,
record it as live, and bind it. -/
def HandleState.get_or_create (st : HandleState) (k : Nat) : Nat × HandleState :=
  match smGet k st.entries with
  | some i => (i, st)
  | none =>
    let i := st.nextId
    let b := StrikeOrderBook.new st.underlying st.expiration k i
    (i, { st with
          entries := smInsert k i st.entries
          store := smInsert i b st.store
          nextId := i + 1 })

/-- `remove` in the handle model (`strike.rs` 299-301): unbind the key,
leaving the store of live instances untouched (outstanding handles keep
their referent alive). -/
def HandleState.remove (st : HandleState) (k : Nat) : Bool × HandleState :=
  let p := smRemoveE k st.entries
  (p.1.isSome, { st with entries := p.2 })

/-! ### Two racing `get_or_create` callers

`get_or_create` performs two separately atomic skiplist operations: the
lookup (`strike.rs` 259) and — when the lookup missed — the insertion of
a freshly constructed instance (`strike.rs` 262-267, construction itself
being thread-local).  A thread is therefore modelled as a two-step
program, and a schedule interleaves the steps of two threads calling
`get_or_create` with the same key on the same manager. -/

/-- One caller's progress: not started; holding the lookup result;
finished with a returned handle. -/
inductive TPhase : Type
  | ready : TPhase
  | gotten : Option Nat → TPhase
  | finished : Nat → TPhase
deriving DecidableEq

/-- One atomic step of a caller running `get_or_create k`. -/
def threadStep (k : Nat) (st : HandleState) : TPhase → HandleState × TPhase
  | TPhase.ready => (st, TPhase.gotten (smGet k st.entries))
  | TPhase.gotten (some i) => (st, TPhase.finished i)
  | TPhase.gotten none =>
    let i := st.nextId
    let b := StrikeOrderBook.new st.underlying st.expiration k i
    ({ st with
       entries := smInsert k i st.entries
       store := smInsert i b st.store
       nextId := i + 1 }, TPhase.finished i)
  | TPhase.finished i => (st, TPhase.finished i)

/-- The shared registry and the two callers' program counters. -/
structure TwoThreads : Type where
  shared : HandleState
  pcA : TPhase
  pcB : TPhase
deriving DecidableEq

/-- Both callers about to run `get_or_create` on a fresh registry. -/
def TwoThreads.start (underlying : String) (expiration : Nat) : TwoThreads :=
  { shared := HandleState.init underlying expiration
    pcA := TPhase.ready
    pcB := TPhase.ready }

/-- Run a schedule: `false` steps caller A, `true` steps caller B. -/
def runSchedule (k : Nat) : List Bool → TwoThreads → TwoThreads
  | [], s => s
  | b :: rest, s =>
    if b then
      let p := threadStep k s.shared s.pcB
      runSchedule k rest { s with shared := p.1, pcB := p.2 }
    else
      let p := threadStep k s.shared s.pcA
      runSchedule k rest { s with shared := p.1, pcA := p.2 }

/-- The handle a finished caller returned. -/
def retOf : TPhase → Option Nat
  | TPhase.finished i => some i
  | _ => none

/-- All six interleavings of the two callers' two steps. -/
def interleavings : List (List Bool) :=
  [[false, false, true, true], [false, true, false, true], [false, true, true, false],
   [true, false, false, true], [true, false, true, false], [true, true, false, false]]

/-- What actually holds at the end of any complete race: both callers
finished with live handles, the map binds the key to exactly one entry,
and that visible instance is one of the two returned handles. -/
def raceOutcomeOk (k : Nat) (s : TwoThreads) : Bool :=
  match retOf s.pcA, retOf s.pcB with
  | some a, some b =>
    decide (smKeys s.shared.entries = [k]) &&
    (smGet k s.shared.entries == some a || smGet k s.shared.entries == some b) &&
    (s.shared.deref a).isSome && (s.shared.deref b).isSome
  | _, _ => false

/-! ### Concrete fixtures used by witnesses -/

/-- A strike manager holding the spec's test strikes 45000, 50000, 55000. -/
def demoStrikeMgr : StrikeOrderBookManager :=
  ((((StrikeOrderBookManager.new "BTC" 20240329).get_or_create 45000).2.get_or_create
      50000).2.get_or_create 55000).2

/-- A strike manager holding the strikes 0 and 3 (used at a huge spot). -/
def hugeSpotMgr : StrikeOrderBookManager :=
  (((StrikeOrderBookManager.new "BTC" 20240329).get_or_create 0).2.get_or_create 3).2

/-- An option chain holding one strike with zero resting orders. -/
def demoChain : OptionChainOrderBook :=
  ((OptionChainOrderBook.new "BTC" 20240329).get_or_create_strike 50000).2

/-- The end state of the schedule in which both callers' lookups run
before either insertion: A looks up, B looks up, A creates and inserts,
B creates and inserts. -/
def raceResult : TwoThreads :=
  runSchedule 50000 [false, true, false, true] (TwoThreads.start "BTC" 20240329)

/-! ### Lemmas about the skiplist embedding -/

theorem smGet_smInsert_self {α β : Type} [LinearOrder α] (k : α) (v : β) (l : List (α × β)) :
    smGet k (smInsert k v l) = some v := by
  induction l with
  | nil => simp [smInsert, smGet]
  | cons hd tl ih =>
    obtain ⟨k0, v0⟩ := hd
    by_cases h1 : k < k0
    · simp [smInsert, h1, smGet]
    · by_cases h2 : k = k0
      · simp [smInsert, h1, h2, smGet]
      · simp [smInsert, h1, h2, smGet, ih]

theorem smGet_smInsert_ne {α β : Type} [LinearOrder α] {k k2 : α} (h : k ≠ k2) (v : β)
    (l : List (α × β)) : smGet k (smInsert k2 v l) = smGet k l := by
  induction l with
  | nil => simp [smInsert, smGet, h]
  | cons hd tl ih =>
    obtain ⟨k0, v0⟩ := hd
    by_cases h1 : k2 < k0
    · simp [smInsert, h1, smGet, h]
    · by_cases h2 : k2 = k0
      · subst h2; simp [smInsert, h1, smGet, h]
      · by_cases h3 : k = k0 <;> simp [smInsert, h1, h2, smGet, h3, ih]

theorem smGet_isSome_iff_mem {α β : Type} [LinearOrder α] (k : α) (l : List (α × β)) :
    (smGet k l).isSome = true ↔ k ∈ smKeys l := by
  induction l with
  | nil => simp [smGet, smKeys]
  | cons hd tl ih =>
    obtain ⟨k0, v0⟩ := hd
    by_cases h : k = k0
    · simp [smGet, smKeys, h]
    · simpa [smGet, smKeys, h] using ih

theorem mem_smKeys_smInsert {α β : Type} [LinearOrder α] {x k : α} (v : β) :
    ∀ l : List (α × β), x ∈ smKeys (smInsert k v l) → x = k ∨ x ∈ smKeys l := by
  intro l
  induction l with
  | nil => simp [smInsert, smKeys]
  | cons hd tl ih =>
    obtain ⟨k0, v0⟩ := hd
    by_cases h1 : k < k0
    · simp [smInsert, h1, smKeys]
    · by_cases h2 : k = k0
      · simp [smInsert, h1, h2, smKeys]
      · simp only [smInsert, if_neg h1, if_neg h2, smKeys, List.map_cons, List.mem_cons]
        intro hx
        rcases hx with hx | hx
        · exact Or.inr (Or.inl hx)
        · rcases ih hx with hx | hx
          · exact Or.inl hx
          · exact Or.inr (Or.inr hx)

theorem pairwise_smKeys_smInsert {α β : Type} [LinearOrder α] (k : α) (v : β) :
    ∀ {l : List (α × β)}, (smKeys l).Pairwise (· < ·) →
      (smKeys (smInsert k v l)).Pairwise (· < ·) := by
  intro l
  induction l with
  | nil => intro _; simp [smInsert, smKeys]
  | cons hd tl ih =>
    obtain ⟨k0, v0⟩ := hd
    intro h
    rw [smKeys, List.map_cons, List.pairwise_cons] at h
    obtain ⟨h0, htl⟩ := h
    by_cases h1 : k < k0
    · simp only [smInsert, if_pos h1, smKeys, List.map_cons, List.pairwise_cons]
      refine ⟨?_, ?_, htl⟩
      · intro y hy
        rcases List.mem_cons.1 hy with hy | hy
        · exact hy ▸ h1
        · exact lt_trans h1 (h0 y hy)
      · exact h0
    · by_cases h2 : k = k0
      · simp only [smInsert, if_neg h1, if_pos h2, smKeys, List.map_cons, List.pairwise_cons]
        exact ⟨fun y hy => h2 ▸ h0 y hy, htl⟩
      · have hgt : k0 < k := lt_of_le_of_ne (le_of_not_lt h1) fun e => h2 e.symm
        simp only [smInsert, if_neg h1, if_neg h2, smKeys, List.map_cons, List.pairwise_cons]
        refine ⟨?_, ih htl⟩
        intro y hy
        rcases mem_smKeys_smInsert v tl hy with hy | hy
        · exact hy ▸ hgt
        · exact h0 y hy

theorem smKeys_smRemoveE_sublist {α β : Type} [LinearOrder α] (k : α) :
    ∀ l : List (α × β), List.Sublist (smKeys (smRemoveE k l).2) (smKeys l) := by
  intro l
  induction l with
  | nil => simp [smRemoveE, smKeys]
  | cons hd tl ih =>
    obtain ⟨k0, v0⟩ := hd
    by_cases h : k = k0
    · simp [smRemoveE, h, smKeys]
    · simpa [smRemoveE, h, smKeys] using List.Sublist.cons₂ k0 ih

theorem smRemoveE_fst_isSome {α β : Type} [LinearOrder α] (k : α) (l : List (α × β)) :
    (smRemoveE k l).1.isSome = (smGet k l).isSome := by
  induction l with
  | nil => simp [smRemoveE, smGet]
  | cons hd tl ih =>
    obtain ⟨k0, v0⟩ := hd
    by_cases h : k = k0 <;> simp [smRemoveE, smGet, h, ih]

theorem smGet_smRemoveE_self {α β : Type} [LinearOrder α] (k : α) :
    ∀ {l : List (α × β)}, (smKeys l).Nodup → smGet k (smRemoveE k l).2 = none := by
  intro l
  induction l with
  | nil => intro _; simp [smRemoveE, smGet]
  | cons hd tl ih =>
    obtain ⟨k0, v0⟩ := hd
    intro h
    have h' : k0 ∉ smKeys tl ∧ (smKeys tl).Nodup := by
      simpa [smKeys] using h
    obtain ⟨hnm, htl⟩ := h'
    by_cases h : k = k0
    · subst h
      have hnone : smGet k tl = none := by
        rcases hg : smGet k tl with _ | b
        · rfl
        · exact absurd ((smGet_isSome_iff_mem k tl).1 (by simp [hg])) hnm
      simp [smRemoveE, hnone]
    · simp [smRemoveE, h, smGet, ih htl]

/-! ### Lemmas about `minByKey` (the `Iterator::min_by_key` embedding) -/

theorem minByKey_eq_none_iff {α : Type} (f : α → Nat) (l : List α) :
    minByKey f l = none ↔ l = [] := by
  cases l with
  | nil => simp [minByKey]
  | cons x xs =>
    simp only [minByKey]
    cases h : minByKey f xs with
    | none => simp
    | some m =>
      by_cases hle : f x ≤ f m <;> simp [hle]

theorem minByKey_mem {α : Type} {f : α → Nat} :
    ∀ {l : List α} {m : α}, minByKey f l = some m → m ∈ l := by
  intro l
  induction l with
  | nil => intro m h; simp [minByKey] at h
  | cons x xs ih =>
    intro m h
    simp only [minByKey] at h
    cases h2 : minByKey f xs with
    | none =>
      rw [h2] at h
      simp at h
      simp [h]
    | some m2 =>
      rw [h2] at h
      by_cases hle : f x ≤ f m2
      · simp [hle] at h
        simp [h]
      · simp [hle] at h
        exact List.mem_cons_of_mem x (ih (h ▸ h2))

theorem minByKey_le {α : Type} {f : α → Nat} :
    ∀ {l : List α} {m : α}, minByKey f l = some m → ∀ y ∈ l, f m ≤ f y := by
  intro l
  induction l with
  | nil => intro m h; simp [minByKey] at h
  | cons x xs ih =>
    intro m h y hy
    simp only [minByKey] at h
    cases h2 : minByKey f xs with
    | none =>
      have hxs : xs = [] := (minByKey_eq_none_iff f xs).1 h2
      rw [h2] at h
      simp at h
      subst hxs
      rcases List.mem_cons.1 hy with hy | hy
      · subst hy; exact h ▸ le_refl _
      · simp at hy
    | some m2 =>
      rw [h2] at h
      by_cases hle : f x ≤ f m2
      · simp [hle] at h
        subst h
        rcases List.mem_cons.1 hy with hy | hy
        · subst hy; exact le_refl _
        · exact le_trans hle (ih h2 y hy)
      · simp [hle] at h
        subst h
        rcases List.mem_cons.1 hy with hy | hy
        · subst hy; exact le_of_lt (lt_of_not_le hle)
        · exact ih h2 y hy

theorem minByKey_tie_lower {α : Type} [LinearOrder α] {f : α → Nat} :
    ∀ {l : List α}, l.Pairwise (· < ·) → ∀ {m : α}, minByKey f l = some m →
      ∀ y ∈ l, f y = f m → m ≤ y := by
  intro l
  induction l with
  | nil => intro _ m h; simp [minByKey] at h
  | cons x xs ih =>
    intro hp m h y hy hfy
    rw [List.pairwise_cons] at hp
    obtain ⟨hx, hxs⟩ := hp
    simp only [minByKey] at h
    cases h2 : minByKey f xs with
    | none =>
      have : xs = [] := (minByKey_eq_none_iff f xs).1 h2
      subst this
      rw [h2] at h
      simp at h
      subst h
      rcases List.mem_cons.1 hy with hy | hy
      · exact hy ▸ le_refl _
      · simp at hy
    | some m2 =>
      rw [h2] at h
      by_cases hle : f x ≤ f m2
      · simp [hle] at h
        subst h
        rcases List.mem_cons.1 hy with hy | hy
        · exact hy ▸ le_refl _
        · exact le_of_lt (hx y hy)
      · simp [hle] at h
        subst h
        rcases List.mem_cons.1 hy with hy | hy
        · exfalso
          subst hy
          exact hle (hfy ▸ le_refl _)
        · exact ih hxs h2 y hy hfy

/-! ### The wrapped `i64` distance versus the exact distance -/

theorem i64ofNat_of_lt {x : Nat} (h : x < 2 ^ 63) : i64ofNat x = (x : Int) := by
  have hp : (2 : Nat) ^ 63 = 9223372036854775808 := by norm_num
  have h63 : x < 9223372036854775808 := hp ▸ h
  have h64 : x < 18446744073709551616 := lt_trans h63 (by norm_num)
  simp [i64ofNat, Nat.mod_eq_of_lt h64, h63]

theorem i64wrap_of_bounds {z : Int} (h1 : -(2 ^ 63) ≤ z) (h2 : z < 2 ^ 63) :
    i64wrap z = z := by
  have hnn : 0 ≤ z + 2 ^ 63 := by linarith
  have hlt : z + 2 ^ 63 < 2 ^ 64 := by
    have he : (2 : Int) ^ 64 = 2 ^ 63 + 2 ^ 63 := by norm_num
    linarith
  rw [i64wrap, Int.emod_eq_of_lt hnn hlt]
  ring

theorem distKey_eq_absDist {k spot : Nat} (hk : k < 2 ^ 63) (hs : spot < 2 ^ 63) :
    distKey spot k = absDist k spot := by
  have hk' : (k : Int) < 2 ^ 63 := by exact_mod_cast hk
  have hs' : (spot : Int) < 2 ^ 63 := by exact_mod_cast hs
  have hknn : (0 : Int) ≤ (k : Int) := Int.natCast_nonneg k
  have hsnn : (0 : Int) ≤ (spot : Int) := Int.natCast_nonneg spot
  rw [distKey, absDist, i64ofNat_of_lt hk, i64ofNat_of_lt hs, i64wrap_of_bounds]
  · linarith
  · linarith

/-! ### Per-level registry lemmas -/

theorem StrikeOrderBookManager.strike_get_ok_iff (m : StrikeOrderBookManager) (k : Nat)
    (b : StrikeOrderBook) : m.get k = Except.ok b ↔ smGet k m.strikes = some b := by
  cases h : smGet k m.strikes with
  | none => simp [StrikeOrderBookManager.get, h]
  | some v => simp [StrikeOrderBookManager.get, h]

theorem StrikeOrderBookManager.strike_gc_of_get_ok {m : StrikeOrderBookManager} {k : Nat}
    {b : StrikeOrderBook} (h : m.get k = Except.ok b) : m.get_or_create k = (b, m) := by
  have hg := (m.strike_get_ok_iff k b).1 h
  simp [StrikeOrderBookManager.get_or_create, hg]

theorem StrikeOrderBookManager.strike_gc_get {m : StrikeOrderBookManager} {k : Nat}
    {b : StrikeOrderBook} {m2 : StrikeOrderBookManager}
    (h : m.get_or_create k = (b, m2)) : m2.get k = Except.ok b := by
  cases hg : smGet k m.strikes with
  | some b0 =>
    rw [StrikeOrderBookManager.get_or_create, hg] at h
    obtain ⟨h1, h2⟩ := Prod.mk.injEq .. ▸ h
    subst h1; subst h2
    exact (m.strike_get_ok_iff k b0).2 hg
  | none =>
    rw [StrikeOrderBookManager.get_or_create, hg] at h
    simp only at h
    obtain ⟨h1, h2⟩ := Prod.mk.injEq .. ▸ h
    subst h1; subst h2
    exact (StrikeOrderBookManager.strike_get_ok_iff _ k _).2 (smGet_smInsert_self k _ m.strikes)

theorem StrikeOrderBookManager.strike_gc_preserves {m : StrikeOrderBookManager} {k : Nat}
    {b : StrikeOrderBook} (h : m.get k = Except.ok b) (k2 : Nat) :
    ((m.get_or_create k2).2).get k = Except.ok b := by
  have hg := (m.strike_get_ok_iff k b).1 h
  cases hg2 : smGet k2 m.strikes with
  | some b0 => simp [StrikeOrderBookManager.get_or_create, hg2, h]
  | none =>
    have hne : k ≠ k2 := by
      intro e; subst e; rw [hg] at hg2; exact Option.noConfusion hg2
    simp only [StrikeOrderBookManager.get_or_create, hg2]
    exact (StrikeOrderBookManager.strike_get_ok_iff _ k b).2
      ((smGet_smInsert_ne hne _ m.strikes).trans hg)

theorem StrikeOrderBookManager.strike_applyCreates_preserves {m : StrikeOrderBookManager} {k : Nat}
    {b : StrikeOrderBook} (h : m.get k = Except.ok b) :
    ∀ ks : List Nat, (m.applyCreates ks).get k = Except.ok b := by
  intro ks
  induction ks generalizing m with
  | nil => exact h
  | cons k2 rest ih =>
    exact ih (StrikeOrderBookManager.strike_gc_preserves h k2)

theorem ExpirationOrderBookManager.exp_get_ok_iff (m : ExpirationOrderBookManager) (k : Nat)
    (b : ExpirationOrderBook) : m.get k = Except.ok b ↔ smGet k m.expirations = some b := by
  cases h : smGet k m.expirations with
  | none => simp [ExpirationOrderBookManager.get, h]
  | some v => simp [ExpirationOrderBookManager.get, h]

theorem ExpirationOrderBookManager.exp_gc_of_get_ok {m : ExpirationOrderBookManager} {k : Nat}
    {b : ExpirationOrderBook} (h : m.get k = Except.ok b) : m.get_or_create k = (b, m) := by
  have hg := (m.exp_get_ok_iff k b).1 h
  simp [ExpirationOrderBookManager.get_or_create, hg]

theorem ExpirationOrderBookManager.exp_gc_get {m : ExpirationOrderBookManager} {k : Nat}
    {b : ExpirationOrderBook} {m2 : ExpirationOrderBookManager}
    (h : m.get_or_create k = (b, m2)) : m2.get k = Except.ok b := by
  cases hg : smGet k m.expirations with
  | some b0 =>
    rw [ExpirationOrderBookManager.get_or_create, hg] at h
    obtain ⟨h1, h2⟩ := Prod.mk.injEq .. ▸ h
    subst h1; subst h2
    exact (m.exp_get_ok_iff k b0).2 hg
  | none =>
    rw [ExpirationOrderBookManager.get_or_create, hg] at h
    simp only at h
    obtain ⟨h1, h2⟩ := Prod.mk.injEq .. ▸ h
    subst h1; subst h2
    exact (ExpirationOrderBookManager.exp_get_ok_iff _ k _).2 (smGet_smInsert_self k _ m.expirations)

theorem ExpirationOrderBookManager.exp_gc_preserves {m : ExpirationOrderBookManager} {k : Nat}
    {b : ExpirationOrderBook} (h : m.get k = Except.ok b) (k2 : Nat) :
    ((m.get_or_create k2).2).get k = Except.ok b := by
  have hg := (m.exp_get_ok_iff k b).1 h
  cases hg2 : smGet k2 m.expirations with
  | some b0 => simp [ExpirationOrderBookManager.get_or_create, hg2, h]
  | none =>
    have hne : k ≠ k2 := by
      intro e; subst e; rw [hg] at hg2; exact Option.noConfusion hg2
    simp only [ExpirationOrderBookManager.get_or_create, hg2]
    exact (ExpirationOrderBookManager.exp_get_ok_iff _ k b).2
      ((smGet_smInsert_ne hne _ m.expirations).trans hg)

theorem ExpirationOrderBookManager.exp_applyCreates_preserves {m : ExpirationOrderBookManager}
    {k : Nat} {b : ExpirationOrderBook} (h : m.get k = Except.ok b) :
    ∀ ks : List Nat, (m.applyCreates ks).get k = Except.ok b := by
  intro ks
  induction ks generalizing m with
  | nil => exact h
  | cons k2 rest ih =>
    exact ih (ExpirationOrderBookManager.exp_gc_preserves h k2)

theorem UnderlyingOrderBookManager.und_get_ok_iff (m : UnderlyingOrderBookManager) (k : String)
    (b : UnderlyingOrderBook) : m.get k = Except.ok b ↔ smGet k m.underlyings = some b := by
  cases h : smGet k m.underlyings with
  | none => simp [UnderlyingOrderBookManager.get, h]
  | some v => simp [UnderlyingOrderBookManager.get, h]

theorem UnderlyingOrderBookManager.und_gc_of_get_ok {m : UnderlyingOrderBookManager} {k : String}
    {b : UnderlyingOrderBook} (h : m.get k = Except.ok b) : m.get_or_create k = (b, m) := by
  have hg := (m.und_get_ok_iff k b).1 h
  simp [UnderlyingOrderBookManager.get_or_create, hg]

theorem UnderlyingOrderBookManager.und_gc_get {m : UnderlyingOrderBookManager} {k : String}
    {b : UnderlyingOrderBook} {m2 : UnderlyingOrderBookManager}
    (h : m.get_or_create k = (b, m2)) : m2.get k = Except.ok b := by
  cases hg : smGet k m.underlyings with
  | some b0 =>
    rw [UnderlyingOrderBookManager.get_or_create, hg] at h
    obtain ⟨h1, h2⟩ := Prod.mk.injEq .. ▸ h
    subst h1; subst h2
    exact (m.und_get_ok_iff k b0).2 hg
  | none =>
    rw [UnderlyingOrderBookManager.get_or_create, hg] at h
    simp only at h
    obtain ⟨h1, h2⟩ := Prod.mk.injEq .. ▸ h
    subst h1; subst h2
    exact (UnderlyingOrderBookManager.und_get_ok_iff _ k _).2 (smGet_smInsert_self k _ m.underlyings)

theorem UnderlyingOrderBookManager.und_gc_preserves {m : UnderlyingOrderBookManager} {k : String}
    {b : UnderlyingOrderBook} (h : m.get k = Except.ok b) (k2 : String) :
    ((m.get_or_create k2).2).get k = Except.ok b := by
  have hg := (m.und_get_ok_iff k b).1 h
  cases hg2 : smGet k2 m.underlyings with
  | some b0 => simp [UnderlyingOrderBookManager.get_or_create, hg2, h]
  | none =>
    have hne : k ≠ k2 := by
      intro e; subst e; rw [hg] at hg2; exact Option.noConfusion hg2
    simp only [UnderlyingOrderBookManager.get_or_create, hg2]
    exact (UnderlyingOrderBookManager.und_get_ok_iff _ k b).2
      ((smGet_smInsert_ne hne _ m.underlyings).trans hg)

theorem UnderlyingOrderBookManager.und_applyCreates_preserves {m : UnderlyingOrderBookManager}
    {k : String} {b : UnderlyingOrderBook} (h : m.get k = Except.ok b) :
    ∀ ks : List String, (m.applyCreates ks).get k = Except.ok b := by
  intro ks
  induction ks generalizing m with
  | nil => exact h
  | cons k2 rest ih =>
    exact ih (UnderlyingOrderBookManager.und_gc_preserves h k2)

/-! ### Sum-over-flattening lemma for the aggregation claim -/

theorem sum_map_flatMap {α β : Type} (l : List α) (f : α → List β) (g : β → Nat) :
    ((l.flatMap f).map g).sum = (l.map (fun x => ((f x).map g).sum)).sum := by
  induction l with
  | nil => simp
  | cons x xs ih => simp [ih]

/-! ### Facts about `atm_strike` -/

theorem atm_strike_empty (m : StrikeOrderBookManager) (spot : Nat) (h : m.strikes = []) :
    m.atm_strike spot = Except.error (Error.NoDataAvailable "no strikes available") := by
  simp [StrikeOrderBookManager.atm_strike, h, smKeys, minByKey]

theorem atm_strike_ok_exists (m : StrikeOrderBookManager) (spot : Nat) (h : m.strikes ≠ []) :
    ∃ s, m.atm_strike spot = Except.ok s := by
  cases hmin : minByKey (distKey spot) (smKeys m.strikes) with
  | none =>
    exfalso
    have hk := (minByKey_eq_none_iff _ _).1 hmin
    rw [smKeys, List.map_eq_nil_iff] at hk
    exact h hk
  | some s => exact ⟨s, by simp [StrikeOrderBookManager.atm_strike, hmin]⟩

theorem atm_strike_ok_spec {m : StrikeOrderBookManager} {spot s : Nat}
    (hs : m.atm_strike spot = Except.ok s) :
    s ∈ m.strike_prices ∧ ∀ k ∈ m.strike_prices, distKey spot s ≤ distKey spot k := by
  cases hmin : minByKey (distKey spot) (smKeys m.strikes) with
  | none => simp [StrikeOrderBookManager.atm_strike, hmin] at hs
  | some s0 =>
    simp only [StrikeOrderBookManager.atm_strike] at hs
    rw [hmin] at hs
    simp at hs
    subst hs
    exact ⟨minByKey_mem hmin, fun k hk => minByKey_le hmin k hk⟩

theorem atm_strike_tie {m : StrikeOrderBookManager} {spot s : Nat}
    (hsorted : (smKeys m.strikes).Pairwise (· < ·))
    (hs : m.atm_strike spot = Except.ok s) :
    ∀ k ∈ m.strike_prices, distKey spot k = distKey spot s → s ≤ k := by
  cases hmin : minByKey (distKey spot) (smKeys m.strikes) with
  | none => simp [StrikeOrderBookManager.atm_strike, hmin] at hs
  | some s0 =>
    simp only [StrikeOrderBookManager.atm_strike] at hs
    rw [hmin] at hs
    simp at hs
    subst hs
    exact fun k hk he => minByKey_tie_lower hsorted hmin k hk he

/-! ### Claim C1 -/

/-- Claim C1 counterexample: the claim asserts that for every registered
strike set and **every** spot price, `atm_strike(spot)` returns a
registered strike minimizing the exact distance `|strike - spot|`.  With
registered strikes 0 and 3 and spot `2 ^ 64 - 1`, the wrapping `as i64`
casts make the code return strike 0, although strike 3 is strictly
closer to the spot in the exact metric. -/
theorem C1_counterexample :
    hugeSpotMgr.atm_strike (2 ^ 64 - 1) = Except.ok 0 ∧
    (0 : Nat) ∈ hugeSpotMgr.strike_prices ∧ (3 : Nat) ∈ hugeSpotMgr.strike_prices ∧
    absDist 3 (2 ^ 64 - 1) < absDist 0 (2 ^ 64 - 1) :=
  ⟨by rfl, by decide, by decide, by decide⟩

/-- Claim C1 (amended): for a manager whose registered strikes are held
in ascending skiplist order, **provided every registered strike and the
spot are below `2 ^ 63`**, `atm_strike(spot)` succeeds and returns a
registered strike minimizing `|strike - spot|`, with ties broken toward
the lower strike; with no registered strikes it fails with
`NoDataAvailable`. -/
theorem C1_atm_strike (m : StrikeOrderBookManager) (spot : Nat)
    (hsorted : (smKeys m.strikes).Pairwise (· < ·))
    (hbound : ∀ k ∈ m.strike_prices, k < 2 ^ 63) (hspot : spot < 2 ^ 63) :
    (m.strikes = [] →
      m.atm_strike spot = Except.error (Error.NoDataAvailable "no strikes available")) ∧
    (m.strikes ≠ [] → ∃ s, m.atm_strike spot = Except.ok s ∧ s ∈ m.strike_prices ∧
      (∀ k ∈ m.strike_prices, absDist s spot ≤ absDist k spot) ∧
      (∀ k ∈ m.strike_prices, absDist k spot = absDist s spot → s ≤ k)) := by
  constructor
  · exact atm_strike_empty m spot
  · intro hne
    obtain ⟨s, hs⟩ := atm_strike_ok_exists m spot hne
    obtain ⟨hmem, hmin⟩ := atm_strike_ok_spec hs
    have hsb : s < 2 ^ 63 := hbound s hmem
    refine ⟨s, hs, hmem, ?_, ?_⟩
    · intro k hk
      have hle := hmin k hk
      rwa [distKey_eq_absDist hsb hspot, distKey_eq_absDist (hbound k hk) hspot] at hle
    · intro k hk he
      refine atm_strike_tie hsorted hs k hk ?_
      rw [distKey_eq_absDist (hbound k hk) hspot, distKey_eq_absDist hsb hspot]
      exact he

/-- Witness for C1 at the spec's test data: strikes 45000, 50000, 55000
and spot 52000 satisfy every hypothesis of the amended theorem. -/
theorem C1_atm_strike_witness :
    (demoStrikeMgr.strikes = [] → demoStrikeMgr.atm_strike 52000 =
      Except.error (Error.NoDataAvailable "no strikes available")) ∧
    (demoStrikeMgr.strikes ≠ [] → ∃ s, demoStrikeMgr.atm_strike 52000 = Except.ok s ∧
      s ∈ demoStrikeMgr.strike_prices ∧
      (∀ k ∈ demoStrikeMgr.strike_prices, absDist s 52000 ≤ absDist k 52000) ∧
      (∀ k ∈ demoStrikeMgr.strike_prices, absDist k 52000 = absDist s 52000 → s ≤ k)) :=
  C1_atm_strike demoStrikeMgr 52000 (by decide) (by decide) (by decide)

/-! ### Claim C2 -/

/-- Claim C2: in sequential execution, at every manager level (strike,
expiration, underlying), `get_or_create(k)` always produces a value
(total by type in this embedding); immediately afterwards `contains(k)`
is true, and after any further sequence of `get_or_create` calls (no
intervening remove), both `get(k)` and `get_or_create(k)` return the very
book the original call produced, without constructing a new instance
(the manager state is returned unchanged). -/
theorem C2_get_or_create_idempotent :
    (∀ (m : StrikeOrderBookManager) (k : Nat) (b : StrikeOrderBook)
        (m2 : StrikeOrderBookManager), m.get_or_create k = (b, m2) →
      m2.contains k = true ∧
      ∀ ks : List Nat, (m2.applyCreates ks).get k = Except.ok b ∧
        (m2.applyCreates ks).get_or_create k = (b, m2.applyCreates ks)) ∧
    (∀ (m : ExpirationOrderBookManager) (k : Nat) (b : ExpirationOrderBook)
        (m2 : ExpirationOrderBookManager), m.get_or_create k = (b, m2) →
      m2.contains k = true ∧
      ∀ ks : List Nat, (m2.applyCreates ks).get k = Except.ok b ∧
        (m2.applyCreates ks).get_or_create k = (b, m2.applyCreates ks)) ∧
    (∀ (m : UnderlyingOrderBookManager) (k : String) (b : UnderlyingOrderBook)
        (m2 : UnderlyingOrderBookManager), m.get_or_create k = (b, m2) →
      m2.contains k = true ∧
      ∀ ks : List String, (m2.applyCreates ks).get k = Except.ok b ∧
        (m2.applyCreates ks).get_or_create k = (b, m2.applyCreates ks)) := by
  refine ⟨?_, ?_, ?_⟩
  · intro m k b m2 h
    have hget := StrikeOrderBookManager.strike_gc_get h
    refine ⟨?_, ?_⟩
    · have hg := (m2.strike_get_ok_iff k b).1 hget
      simp [StrikeOrderBookManager.contains, smContains, hg]
    · intro ks
      have h2 := StrikeOrderBookManager.strike_applyCreates_preserves hget ks
      exact ⟨h2, StrikeOrderBookManager.strike_gc_of_get_ok h2⟩
  · intro m k b m2 h
    have hget := ExpirationOrderBookManager.exp_gc_get h
    refine ⟨?_, ?_⟩
    · have hg := (m2.exp_get_ok_iff k b).1 hget
      simp [ExpirationOrderBookManager.contains, smContains, hg]
    · intro ks
      have h2 := ExpirationOrderBookManager.exp_applyCreates_preserves hget ks
      exact ⟨h2, ExpirationOrderBookManager.exp_gc_of_get_ok h2⟩
  · intro m k b m2 h
    have hget := UnderlyingOrderBookManager.und_gc_get h
    refine ⟨?_, ?_⟩
    · have hg := (m2.und_get_ok_iff k b).1 hget
      simp [UnderlyingOrderBookManager.contains, smContains, hg]
    · intro ks
      have h2 := UnderlyingOrderBookManager.und_applyCreates_preserves hget ks
      exact ⟨h2, UnderlyingOrderBookManager.und_gc_of_get_ok h2⟩

/-- Witness for C2: a fresh strike manager, key 50000, then keys 55000
and 45000 created afterwards; the original handle is still what `get`
returns. -/
theorem C2_get_or_create_idempotent_witness :
    (((StrikeOrderBookManager.new "BTC" 0).get_or_create 50000).2.contains 50000 = true) ∧
    ((((StrikeOrderBookManager.new "BTC" 0).get_or_create 50000).2.applyCreates
        [55000, 45000]).get 50000 =
      Except.ok ((StrikeOrderBookManager.new "BTC" 0).get_or_create 50000).1) := by
  have h := C2_get_or_create_idempotent.1 (StrikeOrderBookManager.new "BTC" 0) 50000
    ((StrikeOrderBookManager.new "BTC" 0).get_or_create 50000).1
    ((StrikeOrderBookManager.new "BTC" 0).get_or_create 50000).2 rfl
  exact ⟨h.1, (h.2 [55000, 45000]).1⟩

/-! ### Claim C3 -/

/-- Claim C3: at every manager level, `get(k)` returns `Ok` with exactly
the stored instance iff `contains(k)` is true, and otherwise fails with
the level-appropriate not-found error carrying the offending key.  In
this embedding `get` consumes the manager without producing a successor
state: it cannot insert, so the map is unchanged by the call. -/
theorem C3_get_not_found :
    (∀ (m : StrikeOrderBookManager) (k : Nat),
      (m.contains k = true ↔ ∃ b, m.get k = Except.ok b) ∧
      (∀ b, m.get k = Except.ok b ↔ smGet k m.strikes = some b) ∧
      (m.contains k = false → m.get k = Except.error (Error.StrikeNotFound k))) ∧
    (∀ (m : ExpirationOrderBookManager) (k : Nat),
      (m.contains k = true ↔ ∃ b, m.get k = Except.ok b) ∧
      (∀ b, m.get k = Except.ok b ↔ smGet k m.expirations = some b) ∧
      (m.contains k = false → m.get k = Except.error (Error.ExpirationNotFound k))) ∧
    (∀ (m : UnderlyingOrderBookManager) (k : String),
      (m.contains k = true ↔ ∃ b, m.get k = Except.ok b) ∧
      (∀ b, m.get k = Except.ok b ↔ smGet k m.underlyings = some b) ∧
      (m.contains k = false → m.get k = Except.error (Error.UnderlyingNotFound k))) := by
  refine ⟨?_, ?_, ?_⟩
  · intro m k
    refine ⟨?_, m.strike_get_ok_iff k, ?_⟩
    · cases hg : smGet k m.strikes with
      | none => simp [StrikeOrderBookManager.contains, smContains,
          StrikeOrderBookManager.get, hg]
      | some b => simp [StrikeOrderBookManager.contains, smContains,
          StrikeOrderBookManager.get, hg]
    · intro hc
      rcases hg : smGet k m.strikes with _ | b
      · simp [StrikeOrderBookManager.get, hg]
      · rw [StrikeOrderBookManager.contains, smContains, hg] at hc
        simp at hc
  · intro m k
    refine ⟨?_, m.exp_get_ok_iff k, ?_⟩
    · cases hg : smGet k m.expirations with
      | none => simp [ExpirationOrderBookManager.contains, smContains,
          ExpirationOrderBookManager.get, hg]
      | some b => simp [ExpirationOrderBookManager.contains, smContains,
          ExpirationOrderBookManager.get, hg]
    · intro hc
      rcases hg : smGet k m.expirations with _ | b
      · simp [ExpirationOrderBookManager.get, hg]
      · rw [ExpirationOrderBookManager.contains, smContains, hg] at hc
        simp at hc
  · intro m k
    refine ⟨?_, m.und_get_ok_iff k, ?_⟩
    · cases hg : smGet k m.underlyings with
      | none => simp [UnderlyingOrderBookManager.contains, smContains,
          UnderlyingOrderBookManager.get, hg]
      | some b => simp [UnderlyingOrderBookManager.contains, smContains,
          UnderlyingOrderBookManager.get, hg]
    · intro hc
      rcases hg : smGet k m.underlyings with _ | b
      · simp [UnderlyingOrderBookManager.get, hg]
      · rw [UnderlyingOrderBookManager.contains, smContains, hg] at hc
        simp at hc

/-- Witness for C3: on the three-strike fixture, key 99999 is absent and
`get` fails with `StrikeNotFound 99999`. -/
theorem C3_get_not_found_witness :
    demoStrikeMgr.get 99999 = Except.error (Error.StrikeNotFound 99999) :=
  ((C3_get_not_found.1 demoStrikeMgr 99999).2.2) (by decide)

/-! ### Sortedness is preserved by every registry mutation -/

theorem StrikeOrderBookManager.strike_applyOp_sorted {m : StrikeOrderBookManager} (op : RegOp Nat)
    (h : (smKeys m.strikes).Pairwise (· < ·)) :
    (smKeys ((m.applyOp op).strikes)).Pairwise (· < ·) := by
  cases op with
  | create k =>
    cases hg : smGet k m.strikes with
    | some b =>
      simpa [StrikeOrderBookManager.applyOp, StrikeOrderBookManager.get_or_create, hg] using h
    | none =>
      simp only [StrikeOrderBookManager.applyOp, StrikeOrderBookManager.get_or_create, hg]
      exact pairwise_smKeys_smInsert k _ h
  | remove k =>
    simp only [StrikeOrderBookManager.applyOp, StrikeOrderBookManager.remove]
    exact List.Pairwise.sublist (smKeys_smRemoveE_sublist k m.strikes) h

theorem StrikeOrderBookManager.strike_applyOps_sorted {m : StrikeOrderBookManager}
    (h : (smKeys m.strikes).Pairwise (· < ·)) (ops : List (RegOp Nat)) :
    (smKeys ((m.applyOps ops).strikes)).Pairwise (· < ·) := by
  induction ops generalizing m with
  | nil => exact h
  | cons op rest ih => exact ih (StrikeOrderBookManager.strike_applyOp_sorted op h)

theorem UnderlyingOrderBookManager.und_applyOp_sorted {m : UnderlyingOrderBookManager}
    (op : RegOp String) (h : (smKeys m.underlyings).Pairwise (· < ·)) :
    (smKeys ((m.applyOp op).underlyings)).Pairwise (· < ·) := by
  cases op with
  | create k =>
    cases hg : smGet k m.underlyings with
    | some b =>
      simpa [UnderlyingOrderBookManager.applyOp, UnderlyingOrderBookManager.get_or_create,
        hg] using h
    | none =>
      simp only [UnderlyingOrderBookManager.applyOp, UnderlyingOrderBookManager.get_or_create,
        hg]
      exact pairwise_smKeys_smInsert k _ h
  | remove k =>
    simp only [UnderlyingOrderBookManager.applyOp, UnderlyingOrderBookManager.remove]
    exact List.Pairwise.sublist (smKeys_smRemoveE_sublist k m.underlyings) h

theorem UnderlyingOrderBookManager.und_applyOps_sorted {m : UnderlyingOrderBookManager}
    (h : (smKeys m.underlyings).Pairwise (· < ·)) (ops : List (RegOp String)) :
    (smKeys ((m.applyOps ops).underlyings)).Pairwise (· < ·) := by
  induction ops generalizing m with
  | nil => exact h
  | cons op rest ih => exact ih (UnderlyingOrderBookManager.und_applyOp_sorted op h)

/-! ### Claim C4 -/

/-- Claim C4: starting from a fresh manager, after any sequence of
`get_or_create` and `remove` operations, `strike_prices()` on a strike
manager and `underlying_symbols()` on the root manager list exactly the
currently present keys, in strictly ascending order. -/
theorem C4_sorted_enumeration :
    (∀ (u : String) (e : Nat) (ops : List (RegOp Nat)),
      (((StrikeOrderBookManager.new u e).applyOps ops).strike_prices).Pairwise (· < ·) ∧
      ∀ k, k ∈ ((StrikeOrderBookManager.new u e).applyOps ops).strike_prices ↔
        ((StrikeOrderBookManager.new u e).applyOps ops).contains k = true) ∧
    (∀ ops : List (RegOp String),
      ((UnderlyingOrderBookManager.new.applyOps ops).underlying_symbols).Pairwise (· < ·) ∧
      ∀ s, s ∈ (UnderlyingOrderBookManager.new.applyOps ops).underlying_symbols ↔
        (UnderlyingOrderBookManager.new.applyOps ops).contains s = true) := by
  constructor
  · intro u e ops
    constructor
    · exact StrikeOrderBookManager.strike_applyOps_sorted
        (by simp [StrikeOrderBookManager.new, smKeys]) ops
    · intro k
      exact (smGet_isSome_iff_mem k _).symm
  · intro ops
    constructor
    · exact UnderlyingOrderBookManager.und_applyOps_sorted
        (by simp [UnderlyingOrderBookManager.new, smKeys]) ops
    · intro s
      exact (smGet_isSome_iff_mem s _).symm

/-! ### Claim C5 -/

/-- Claim C5: at every manager level, `remove(k)` returns true iff `k`
is present, afterwards `contains(k)` is false and a second `remove(k)`
returns false (the key-uniqueness invariant of the skiplist is the
`Nodup` hypothesis); and in the reference-counted handle model, removal
leaves a previously obtained handle dereferencing to the same unchanged
instance, which for a freshly created key is a live instance. -/
theorem C5_remove_semantics :
    (∀ (m : StrikeOrderBookManager) (k : Nat), (smKeys m.strikes).Nodup →
      (m.remove k).1 = m.contains k ∧
      ((m.remove k).2).contains k = false ∧
      (((m.remove k).2).remove k).1 = false) ∧
    (∀ (m : ExpirationOrderBookManager) (k : Nat), (smKeys m.expirations).Nodup →
      (m.remove k).1 = m.contains k ∧
      ((m.remove k).2).contains k = false ∧
      (((m.remove k).2).remove k).1 = false) ∧
    (∀ (m : UnderlyingOrderBookManager) (k : String), (smKeys m.underlyings).Nodup →
      (m.remove k).1 = m.contains k ∧
      ((m.remove k).2).contains k = false ∧
      (((m.remove k).2).remove k).1 = false) ∧
    (∀ (st : HandleState) (k hdl : Nat) (st1 : HandleState),
      st.get_or_create k = (hdl, st1) →
      ((st1.remove k).2).deref hdl = st1.deref hdl ∧
      (smGet k st.entries = none → (st1.deref hdl).isSome = true)) := by
  refine ⟨?_, ?_, ?_, ?_⟩
  · intro m k hnd
    have hafter : smGet k (smRemoveE k m.strikes).2 = none := smGet_smRemoveE_self k hnd
    refine ⟨?_, ?_, ?_⟩
    · simp [StrikeOrderBookManager.remove, StrikeOrderBookManager.contains, smContains,
        smRemoveE_fst_isSome]
    · simp [StrikeOrderBookManager.remove, StrikeOrderBookManager.contains, smContains, hafter]
    · simp [StrikeOrderBookManager.remove, smRemoveE_fst_isSome, hafter]
  · intro m k hnd
    have hafter : smGet k (smRemoveE k m.expirations).2 = none := smGet_smRemoveE_self k hnd
    refine ⟨?_, ?_, ?_⟩
    · simp [ExpirationOrderBookManager.remove, ExpirationOrderBookManager.contains, smContains,
        smRemoveE_fst_isSome]
    · simp [ExpirationOrderBookManager.remove, ExpirationOrderBookManager.contains, smContains,
        hafter]
    · simp [ExpirationOrderBookManager.remove, smRemoveE_fst_isSome, hafter]
  · intro m k hnd
    have hafter : smGet k (smRemoveE k m.underlyings).2 = none := smGet_smRemoveE_self k hnd
    refine ⟨?_, ?_, ?_⟩
    · simp [UnderlyingOrderBookManager.remove, UnderlyingOrderBookManager.contains, smContains,
        smRemoveE_fst_isSome]
    · simp [UnderlyingOrderBookManager.remove, UnderlyingOrderBookManager.contains, smContains,
        hafter]
    · simp [UnderlyingOrderBookManager.remove, smRemoveE_fst_isSome, hafter]
  · intro st k hdl st1 hgc
    refine ⟨rfl, ?_⟩
    intro hmiss
    rw [HandleState.get_or_create, hmiss] at hgc
    simp only at hgc
    obtain ⟨h1, h2⟩ := Prod.mk.injEq .. ▸ hgc
    subst h1
    subst h2
    simp [HandleState.deref, smGet_smInsert_self]

/-- Witness for C5: the three-strike fixture with key 50000 for the map
clauses, and a freshly created key in the handle model for the handle
clauses. -/
theorem C5_remove_semantics_witness :
    ((demoStrikeMgr.remove 50000).1 = demoStrikeMgr.contains 50000 ∧
      ((demoStrikeMgr.remove 50000).2).contains 50000 = false ∧
      (((demoStrikeMgr.remove 50000).2).remove 50000).1 = false) ∧
    (((((HandleState.init "BTC" 0).get_or_create 50000).2.remove 50000).2).deref
        ((HandleState.init "BTC" 0).get_or_create 50000).1 =
      ((HandleState.init "BTC" 0).get_or_create 50000).2.deref
        ((HandleState.init "BTC" 0).get_or_create 50000).1 ∧
      (((HandleState.init "BTC" 0).get_or_create 50000).2.deref
        ((HandleState.init "BTC" 0).get_or_create 50000).1).isSome = true) := by
  have h4 := C5_remove_semantics.2.2.2 (HandleState.init "BTC" 0) 50000
    ((HandleState.init "BTC" 0).get_or_create 50000).1
    ((HandleState.init "BTC" 0).get_or_create 50000).2 rfl
  exact ⟨C5_remove_semantics.1 demoStrikeMgr 50000 (by decide), h4.1, h4.2 rfl⟩

/-! ### Claim C6 -/

theorem length_flatMap {α β : Type} (l : List α) (f : α → List β) :
    (l.flatMap f).length = (l.map (fun x => (f x).length)).sum := by
  induction l with
  | nil => simp
  | cons x xs ih => simp [ih]

/-- Claim C6: with no concurrent mutation (the sequential embedding),
the root `stats()` aggregates are exactly the direct-traversal totals:
`total_orders` is the sum of `order_count()` over every call and put
leaf reachable from the root, `total_strikes` and `total_expirations`
count the reachable strike and expiration books, each intermediate
level's `total_order_count()` is the sum of its children's totals, and
each `StrikeOrderBook`'s `order_count()` is its call leaf's count plus
its put leaf's count. -/
theorem C6_stats_aggregation (m : UnderlyingOrderBookManager) :
    m.stats.total_orders = ((reachableLeafBooks m).map OptionOrderBook.order_count).sum ∧
    m.stats.total_strikes = (reachableStrikeBooks m).length ∧
    m.stats.total_expirations = (reachableExpirationBooks m).length ∧
    (∀ b : StrikeOrderBook, b.order_count = b.call.order_count + b.put.order_count) ∧
    (∀ mgr : StrikeOrderBookManager, mgr.total_order_count =
      (mgr.strikes.map (fun s => s.2.order_count)).sum) ∧
    (∀ mgr : ExpirationOrderBookManager, mgr.total_order_count =
      (mgr.expirations.map (fun e => e.2.total_order_count)).sum) ∧
    (∀ root : UnderlyingOrderBookManager, root.total_order_count =
      (root.underlyings.map (fun u => u.2.total_order_count)).sum) := by
  refine ⟨?_, ?_, ?_, fun b => rfl, fun mgr => rfl, fun mgr => rfl, fun root => rfl⟩
  · simp [UnderlyingOrderBookManager.stats, UnderlyingOrderBookManager.total_order_count,
      UnderlyingOrderBook.total_order_count, ExpirationOrderBookManager.total_order_count,
      ExpirationOrderBook.total_order_count, OptionChainOrderBook.total_order_count,
      StrikeOrderBookManager.total_order_count, StrikeOrderBook.order_count,
      reachableLeafBooks, reachableStrikeBooks, reachableExpirationBooks,
      sum_map_flatMap, List.map_map, Function.comp_def]
  · rw [reachableStrikeBooks, length_flatMap, reachableExpirationBooks, sum_map_flatMap]
    simp [UnderlyingOrderBookManager.stats, UnderlyingOrderBookManager.total_strike_count,
      UnderlyingOrderBook.total_strike_count, ExpirationOrderBookManager.total_strike_count,
      ExpirationOrderBook.strike_count, OptionChainOrderBook.strike_count,
      StrikeOrderBookManager.len, List.map_map, Function.comp_def]
  · simp [UnderlyingOrderBookManager.stats, UnderlyingOrderBookManager.total_expiration_count,
      UnderlyingOrderBook.expiration_count, ExpirationOrderBookManager.len,
      reachableExpirationBooks, length_flatMap, List.map_map, Function.comp_def]

/-! ### Claim C7 -/

/-- Claim C7 counterexample: `get_or_create` is a non-atomic
check-then-insert (`strike.rs` 258-269), so when two callers race on the
same absent key, both construct an instance: caller A returns handle 0,
caller B returns handle 1, both instances are live, they are distinct
objects, and the map's visible entry is B's instance — so A's returned
handle is not identity-equal to the one visible instance, refuting the
claim that no two distinct live child objects for the key are ever
observable by different callers. -/
theorem C7_counterexample :
    retOf raceResult.pcA = some 0 ∧ retOf raceResult.pcB = some 1 ∧
    (raceResult.shared.deref 0).isSome = true ∧
    (raceResult.shared.deref 1).isSome = true ∧
    raceResult.shared.deref 0 ≠ raceResult.shared.deref 1 ∧
    smGet 50000 raceResult.shared.entries = some 1 := by
  refine ⟨by rfl, by rfl, by rfl, by rfl, by decide, by rfl⟩

/-- Claim C7 (amended): when concurrent `get_or_create` calls on the
same absent key interleave, each racing caller may construct and return
its own live instance (the later insert replaces the earlier entry:
last-write-wins, not insert-if-absent); what does hold, over every
interleaving of two racing callers, is that both callers finish with
live handles, exactly one entry for the key is visible in the map
afterwards, and that visible instance is one of the two returned
handles (in particular, a caller whose lookup hits returns the visible
instance). -/
theorem C7_race_behavior :
    (interleavings.all fun sch =>
      raceOutcomeOk 50000 (runSchedule 50000 sch (TwoThreads.start "BTC" 20240329))) = true := by
  decide

/-! ### Claim C8 -/

/-- Claim C8: `is_fully_quoted()` is true iff the call leaf's best quote
has both a bid and an ask present and the put leaf's best quote has both
a bid and an ask present; it is a pure read (in this embedding a
function of the book returning no successor state). -/
theorem C8_is_fully_quoted (b : StrikeOrderBook) :
    b.is_fully_quoted = true ↔
      (b.call.best_quote.bid.isSome = true ∧ b.call.best_quote.ask.isSome = true ∧
        b.put.best_quote.bid.isSome = true ∧ b.put.best_quote.ask.isSome = true) := by
  simp [StrikeOrderBook.is_fully_quoted, Quote.is_two_sided, and_assoc]

/-! ### Claim C9 -/

/-- Claim C9: `atm_strike` computes each distance by reinterpreting the
`u64` strike and spot as `i64` (a mod-`2 ^ 64` wrap), subtracting with
two's-complement wrapping, and taking the unsigned absolute value; when
every registered strike and the spot are below `2 ^ 63` the casts are
value-preserving and the subtraction cannot wrap, so the computed key
equals the exact distance `|strike - spot|` and the returned strike
truly minimizes it. -/
theorem C9_wrapped_distance :
    (∀ k spot : Nat, k < 2 ^ 63 → spot < 2 ^ 63 → distKey spot k = absDist k spot) ∧
    (∀ (m : StrikeOrderBookManager) (spot : Nat),
      (∀ k ∈ m.strike_prices, k < 2 ^ 63) → spot < 2 ^ 63 →
      ∀ s, m.atm_strike spot = Except.ok s →
        s ∈ m.strike_prices ∧ ∀ k ∈ m.strike_prices, absDist s spot ≤ absDist k spot) := by
  constructor
  · exact fun k spot hk hs => distKey_eq_absDist hk hs
  · intro m spot hbound hspot s hs
    obtain ⟨hmem, hmin⟩ := atm_strike_ok_spec hs
    refine ⟨hmem, ?_⟩
    intro k hk
    have hle := hmin k hk
    rwa [distKey_eq_absDist (hbound s hmem) hspot,
      distKey_eq_absDist (hbound k hk) hspot] at hle

/-- Witness for C9: distances at the spec's fixture are the exact ones,
and the returned ATM strike 50000 at spot 52000 minimizes them. -/
theorem C9_wrapped_distance_witness :
    distKey 52000 50000 = absDist 50000 52000 ∧
    (50000 ∈ demoStrikeMgr.strike_prices ∧
      ∀ k ∈ demoStrikeMgr.strike_prices, absDist 50000 52000 ≤ absDist k 52000) :=
  ⟨C9_wrapped_distance.1 50000 52000 (by decide) (by decide),
   C9_wrapped_distance.2 demoStrikeMgr 52000 (by decide) (by decide) 50000 (by rfl)⟩

/-! ### Claim C10 -/

/-- Claim C10: `is_empty()` means different things at different levels:
the chain's and each manager's `is_empty()` hold iff the underlying map
has no child entries, regardless of order counts — the fixture chain
whose only strike holds zero orders reports `is_empty() = false` while
`total_order_count() = 0` — whereas `StrikeOrderBook::is_empty()` holds
iff both its call and put leaves hold no orders. -/
theorem C10_is_empty_meanings :
    (∀ c : OptionChainOrderBook, c.is_empty = true ↔ c.strikes.strikes = []) ∧
    (∀ m : StrikeOrderBookManager, m.is_empty = true ↔ m.strikes = []) ∧
    (∀ m : ExpirationOrderBookManager, m.is_empty = true ↔ m.expirations = []) ∧
    (∀ m : UnderlyingOrderBookManager, m.is_empty = true ↔ m.underlyings = []) ∧
    (∀ b : StrikeOrderBook, b.is_empty = true ↔ b.call.orders = [] ∧ b.put.orders = []) ∧
    (demoChain.is_empty = false ∧ demoChain.total_order_count = 0) := by
  refine ⟨?_, ?_, ?_, ?_, ?_, by decide, by decide⟩
  · intro c
    simp [OptionChainOrderBook.is_empty, StrikeOrderBookManager.is_empty, List.isEmpty_iff]
  · intro m
    simp [StrikeOrderBookManager.is_empty, List.isEmpty_iff]
  · intro m
    simp [ExpirationOrderBookManager.is_empty, List.isEmpty_iff]
  · intro m
    simp [UnderlyingOrderBookManager.is_empty, List.isEmpty_iff]
  · intro b
    simp [StrikeOrderBook.is_empty, OptionOrderBook.is_empty, List.isEmpty_iff]

end OCOB
